import Mathlib

/-!
Verification of the `b32` package: loop-unrolled `uint64` to/from base32-encoded
string/byte-slice conversion, using a lowercase, unpadded variant of the
RFC 4648 standard base32 alphabet.

The Go source (b32.go) is embedded shallowly:
* bytes are `Nat` (always < 256 on Go-reachable inputs),
* `uint64` arithmetic is `Nat` arithmetic truncated by `mod64` where Go can wrap,
* a slice write/read that would panic (index out of range) is `none`,
* the `init`-built tables `encMap`/`decMap` become pure functions derived from
  the `StdEncoding` constant exactly as `init` builds them.
-/

namespace B32

/-- RFC 4648 standard base32 encoding alphabet; lowercase (`StdEncoding` in b32.go). -/
def StdEncoding : String := "abcdefghijklmnopqrstuvwxyz234567"

/-- The bytes of `StdEncoding` (`[]byte(StdEncoding)` in Go). -/
def stdBytes : List Nat := StdEncoding.data.map Char.toNat

/-- Go's `bytes.IndexByte`: the index of the first instance of `b` in `l`, or -1
if `b` is not present. -/
def indexByte (l : List Nat) (b : Nat) : Int :=
  match l with
  | [] => -1
  | x :: xs =>
    if x = b then 0
    else if indexByte xs b = -1 then -1 else indexByte xs b + 1

/-- Go's `byte(i)` conversion of an `int` value: reduce modulo 256 (so `byte(-1) = 0xff`). -/
def byteOfInt (i : Int) : Nat := (i % 256).toNat

/-- Entry `i` of the 32-entry table `encMap`, filled once by `init` via
`copy(encMap[:], []byte(StdEncoding))`. -/
def encMap (i : Nat) : Nat := stdBytes.getD i 0

/-- Entry `b` of the 256-entry table `decMap`, filled once by `init` via
`decMap[i] = byte(bytes.IndexByte(encMap[:], byte(i)))`: the alphabet index of
symbol `b`, or the sentinel `0xff` when `b` is not in the alphabet. -/
def decMap (b : Nat) : Nat := byteOfInt (indexByte stdBytes b)

/-- Truncation to `uint64` (Go `uint64` arithmetic is modulo `2 ^ 64`). -/
def mod64 (x : Nat) : Nat := x % 2 ^ 64

/-- Go's `dst[i] = v` on a byte slice: panics (`none`) when `i` is out of range. -/
def setByte (l : List Nat) (i : Nat) (v : Nat) : Option (List Nat) :=
  if i < l.length then some (l.set i v) else none

/-- `EncodeUint64` writes a base32 encoding of uint64 `n` to `dst`, writing exactly
13 bytes; it panics (`none`) if `dst` is of insufficient size.  One `setByte` per
Go statement, in source order (b32.go lines 18-32); a failed write aborts the
whole call, as a Go panic would. -/
def EncodeUint64 (n : Nat) (dst : List Nat) : Option (List Nat) :=
  match setByte dst 12 (encMap ((n &&& 0xf) <<< 1)) with
  | none => none
  | some d =>
  match setByte d 11 (encMap ((n >>> 4) &&& 0x1f)) with
  | none => none
  | some d =>
  match setByte d 10 (encMap ((n >>> 9) &&& 0x1f)) with
  | none => none
  | some d =>
  match setByte d 9 (encMap ((n >>> 14) &&& 0x1f)) with
  | none => none
  | some d =>
  match setByte d 8 (encMap ((n >>> 19) &&& 0x1f)) with
  | none => none
  | some d =>
  match setByte d 7 (encMap ((n >>> 24) &&& 0x1f)) with
  | none => none
  | some d =>
  match setByte d 6 (encMap ((n >>> 29) &&& 0x1f)) with
  | none => none
  | some d =>
  match setByte d 5 (encMap ((n >>> 34) &&& 0x1f)) with
  | none => none
  | some d =>
  match setByte d 4 (encMap ((n >>> 39) &&& 0x1f)) with
  | none => none
  | some d =>
  match setByte d 3 (encMap ((n >>> 44) &&& 0x1f)) with
  | none => none
  | some d =>
  match setByte d 2 (encMap ((n >>> 49) &&& 0x1f)) with
  | none => none
  | some d =>
  match setByte d 1 (encMap ((n >>> 54) &&& 0x1f)) with
  | none => none
  | some d =>
  setByte d 0 (encMap (n >>> 59))

/-- `EncodeUint64ToString` returns a string containing the base32 encoding of
uint64 `n` (a fresh 13-byte buffer, encoded, then converted to a string). -/
def EncodeUint64ToString (n : Nat) : String :=
  match EncodeUint64 n (List.replicate 13 0) with
  | some buf => String.mk (buf.map Char.ofNat)
  | none => ""

/-- `DecodeUint64` decodes exactly 13 bytes of base32-encoded `src`, returning the
decoded uint64 and a validity flag; it panics (`none`) if `src` is of insufficient
size.  The reads (src[12] down to src[0], each a potential panic), the reassembled
value `n` and the validity accumulator `m` (including its duplicated
`src[9]`/`src[8]` lookups) mirror b32.go lines 46-67. -/
def DecodeUint64 (src : List Nat) : Option (Nat × Bool) :=
  match src[12]? with
  | none => none
  | some b12 =>
  match src[11]? with
  | none => none
  | some b11 =>
  match src[10]? with
  | none => none
  | some b10 =>
  match src[9]? with
  | none => none
  | some b9 =>
  match src[8]? with
  | none => none
  | some b8 =>
  match src[7]? with
  | none => none
  | some b7 =>
  match src[6]? with
  | none => none
  | some b6 =>
  match src[5]? with
  | none => none
  | some b5 =>
  match src[4]? with
  | none => none
  | some b4 =>
  match src[3]? with
  | none => none
  | some b3 =>
  match src[2]? with
  | none => none
  | some b2 =>
  match src[1]? with
  | none => none
  | some b1 =>
  match src[0]? with
  | none => none
  | some b0 =>
  some (mod64 (decMap b12 >>> 1) |||
    mod64 (decMap b11 <<< 4) |||
    mod64 (decMap b10 <<< 9) |||
    mod64 (decMap b9 <<< 14) |||
    mod64 (decMap b8 <<< 19) |||
    mod64 (decMap b7 <<< 24) |||
    mod64 (decMap b6 <<< 29) |||
    mod64 (decMap b5 <<< 34) |||
    mod64 (decMap b4 <<< 39) |||
    mod64 (decMap b3 <<< 44) |||
    mod64 (decMap b2 <<< 49) |||
    mod64 (decMap b1 <<< 54) |||
    mod64 (decMap b0 <<< 59),
    (decMap b12 ||| decMap b11 ||| decMap b10 ||| decMap b9 |||
      decMap b8 ||| decMap b9 ||| decMap b8 ||| decMap b7 |||
      decMap b6 ||| decMap b5 ||| decMap b4 ||| decMap b3 |||
      decMap b2 ||| decMap b1 ||| decMap b0) &&& 0xe0 == 0)

/-- `DecodeUint64FromString` decodes a base32-encoded string. -/
def DecodeUint64FromString (s : String) : Option (Nat × Bool) :=
  DecodeUint64 (s.data.map Char.toNat)

example : EncodeUint64ToString 0x0102030405060708 = "aebagbafaydqq" := by rfl

example : EncodeUint64ToString 0 = "aaaaaaaaaaaaa" := by rfl

example : DecodeUint64FromString "aebagbafaydqq" = some (0x0102030405060708, true) := by rfl

example : (DecodeUint64FromString "1234567890123").map Prod.snd = some false := by rfl

/-! ### Helper lemmas -/

lemma testBit_15 (k : Nat) : Nat.testBit 15 k = decide (k < 4) := by
  rw [show (15 : Nat) = 2 ^ 4 - 1 by norm_num, Nat.testBit_two_pow_sub_one]

lemma testBit_31 (k : Nat) : Nat.testBit 31 k = decide (k < 5) := by
  rw [show (31 : Nat) = 2 ^ 5 - 1 by norm_num, Nat.testBit_two_pow_sub_one]

lemma shiftLeft_lt_64 (x k : Nat) (hx : x < 2 ^ 5) (hk : k ≤ 59) : x <<< k < 2 ^ 64 := by
  rw [Nat.shiftLeft_eq]
  calc x * 2 ^ k < 2 ^ 5 * 2 ^ k := Nat.mul_lt_mul_of_pos_right hx (Nat.two_pow_pos k)
    _ = 2 ^ (5 + k) := by rw [Nat.pow_add]
    _ ≤ 2 ^ 64 := Nat.pow_le_pow_right (by omega) (by omega)

lemma mod64_eq_of_lt {x : Nat} (h : x < 2 ^ 64) : mod64 x = x := Nat.mod_eq_of_lt h

/-- Decoding the symbol of any 5-bit value recovers the value. -/
lemma dec_enc : ∀ v, v < 32 → decMap (encMap v) = v := by decide

/-- Any value below 32 survives the `& 0xe0` validity test. -/
lemma lt32_and_e0 : ∀ m, m < 32 → m &&& 0xe0 = 0 := by decide

/-- Any list of length at least 13 splits into its first 13 elements and a tail. -/
lemma cons13 (l : List Nat) (h : 13 ≤ l.length) :
    ∃ b0 b1 b2 b3 b4 b5 b6 b7 b8 b9 b10 b11 b12 rest,
      l = b0 :: b1 :: b2 :: b3 :: b4 :: b5 :: b6 :: b7 :: b8 :: b9 :: b10 :: b11 :: b12 :: rest := by
  rcases l with _ | ⟨b0, l⟩; · simp at h
  rcases l with _ | ⟨b1, l⟩; · simp at h
  rcases l with _ | ⟨b2, l⟩; · simp at h
  rcases l with _ | ⟨b3, l⟩; · simp at h
  rcases l with _ | ⟨b4, l⟩; · simp at h
  rcases l with _ | ⟨b5, l⟩; · simp at h
  rcases l with _ | ⟨b6, l⟩; · simp at h
  rcases l with _ | ⟨b7, l⟩; · simp at h
  rcases l with _ | ⟨b8, l⟩; · simp at h
  rcases l with _ | ⟨b9, l⟩; · simp at h
  rcases l with _ | ⟨b10, l⟩; · simp at h
  rcases l with _ | ⟨b11, l⟩; · simp at h
  rcases l with _ | ⟨b12, l⟩; · simp at h
  exact ⟨b0, b1, b2, b3, b4, b5, b6, b7, b8, b9, b10, b11, b12, l, rfl⟩

/-- `EncodeUint64` on an explicitly decomposed buffer of length ≥ 13. -/
lemma encode_cons (n b0 b1 b2 b3 b4 b5 b6 b7 b8 b9 b10 b11 b12 : Nat) (rest : List Nat) :
    EncodeUint64 n (b0 :: b1 :: b2 :: b3 :: b4 :: b5 :: b6 :: b7 :: b8 :: b9 :: b10 :: b11 :: b12 :: rest) =
      some (encMap (n >>> 59) :: encMap ((n >>> 54) &&& 0x1f) :: encMap ((n >>> 49) &&& 0x1f) ::
        encMap ((n >>> 44) &&& 0x1f) :: encMap ((n >>> 39) &&& 0x1f) :: encMap ((n >>> 34) &&& 0x1f) ::
        encMap ((n >>> 29) &&& 0x1f) :: encMap ((n >>> 24) &&& 0x1f) :: encMap ((n >>> 19) &&& 0x1f) ::
        encMap ((n >>> 14) &&& 0x1f) :: encMap ((n >>> 9) &&& 0x1f) :: encMap ((n >>> 4) &&& 0x1f) ::
        encMap ((n &&& 0xf) <<< 1) :: rest) := by
  simp [EncodeUint64, setByte]

/-- `DecodeUint64` on an explicitly decomposed source of length ≥ 13. -/
lemma decode_cons (b0 b1 b2 b3 b4 b5 b6 b7 b8 b9 b10 b11 b12 : Nat) (rest : List Nat) :
    DecodeUint64 (b0 :: b1 :: b2 :: b3 :: b4 :: b5 :: b6 :: b7 :: b8 :: b9 :: b10 :: b11 :: b12 :: rest) =
      some (mod64 (decMap b12 >>> 1) |||
        mod64 (decMap b11 <<< 4) |||
        mod64 (decMap b10 <<< 9) |||
        mod64 (decMap b9 <<< 14) |||
        mod64 (decMap b8 <<< 19) |||
        mod64 (decMap b7 <<< 24) |||
        mod64 (decMap b6 <<< 29) |||
        mod64 (decMap b5 <<< 34) |||
        mod64 (decMap b4 <<< 39) |||
        mod64 (decMap b3 <<< 44) |||
        mod64 (decMap b2 <<< 49) |||
        mod64 (decMap b1 <<< 54) |||
        mod64 (decMap b0 <<< 59),
        (decMap b12 ||| decMap b11 ||| decMap b10 ||| decMap b9 |||
          decMap b8 ||| decMap b9 ||| decMap b8 ||| decMap b7 |||
          decMap b6 ||| decMap b5 ||| decMap b4 ||| decMap b3 |||
          decMap b2 ||| decMap b1 ||| decMap b0) &&& 0xe0 == 0) := by
  simp [DecodeUint64]

set_option maxHeartbeats 1000000 in
/-- Reassembling the thirteen 5-bit groups of a `uint64` recovers it. -/
lemma reassemble (n : Nat) (h : n < 2 ^ 64) :
    (n &&& 0xf) |||
    (((n >>> 4) &&& 0x1f) <<< 4) |||
    (((n >>> 9) &&& 0x1f) <<< 9) |||
    (((n >>> 14) &&& 0x1f) <<< 14) |||
    (((n >>> 19) &&& 0x1f) <<< 19) |||
    (((n >>> 24) &&& 0x1f) <<< 24) |||
    (((n >>> 29) &&& 0x1f) <<< 29) |||
    (((n >>> 34) &&& 0x1f) <<< 34) |||
    (((n >>> 39) &&& 0x1f) <<< 39) |||
    (((n >>> 44) &&& 0x1f) <<< 44) |||
    (((n >>> 49) &&& 0x1f) <<< 49) |||
    (((n >>> 54) &&& 0x1f) <<< 54) |||
    ((n >>> 59) <<< 59) = n := by
  apply Nat.eq_of_testBit_eq
  intro i
  rcases Nat.lt_or_ge i 64 with hi | hi
  · interval_cases i <;> simp [testBit_15, testBit_31]
  · have hmask : ∀ k : Nat, (n >>> k) &&& 0x1f < 2 ^ 5 := fun k =>
      Nat.and_lt_two_pow _ (by norm_num)
    have htop : n >>> 59 < 2 ^ 5 := by
      rw [Nat.shiftRight_eq_div_pow]
      omega
    have hL : (n &&& 0xf) |||
        (((n >>> 4) &&& 0x1f) <<< 4) |||
        (((n >>> 9) &&& 0x1f) <<< 9) |||
        (((n >>> 14) &&& 0x1f) <<< 14) |||
        (((n >>> 19) &&& 0x1f) <<< 19) |||
        (((n >>> 24) &&& 0x1f) <<< 24) |||
        (((n >>> 29) &&& 0x1f) <<< 29) |||
        (((n >>> 34) &&& 0x1f) <<< 34) |||
        (((n >>> 39) &&& 0x1f) <<< 39) |||
        (((n >>> 44) &&& 0x1f) <<< 44) |||
        (((n >>> 49) &&& 0x1f) <<< 49) |||
        (((n >>> 54) &&& 0x1f) <<< 54) |||
        ((n >>> 59) <<< 59) < 2 ^ 64 :=
      Nat.or_lt_two_pow
        (Nat.or_lt_two_pow
          (Nat.or_lt_two_pow
            (Nat.or_lt_two_pow
              (Nat.or_lt_two_pow
                (Nat.or_lt_two_pow
                  (Nat.or_lt_two_pow
                    (Nat.or_lt_two_pow
                      (Nat.or_lt_two_pow
                        (Nat.or_lt_two_pow
                          (Nat.or_lt_two_pow
                            (Nat.or_lt_two_pow
                              (Nat.and_lt_two_pow _ (by norm_num))
                              (shiftLeft_lt_64 _ _ (hmask 4) (by omega)))
                            (shiftLeft_lt_64 _ _ (hmask 9) (by omega)))
                          (shiftLeft_lt_64 _ _ (hmask 14) (by omega)))
                        (shiftLeft_lt_64 _ _ (hmask 19) (by omega)))
                      (shiftLeft_lt_64 _ _ (hmask 24) (by omega)))
                    (shiftLeft_lt_64 _ _ (hmask 29) (by omega)))
                  (shiftLeft_lt_64 _ _ (hmask 34) (by omega)))
                (shiftLeft_lt_64 _ _ (hmask 39) (by omega)))
              (shiftLeft_lt_64 _ _ (hmask 44) (by omega)))
            (shiftLeft_lt_64 _ _ (hmask 49) (by omega)))
          (shiftLeft_lt_64 _ _ (hmask 54) (by omega)))
        (shiftLeft_lt_64 _ _ htop (by omega))
    have hle : 2 ^ 64 ≤ 2 ^ i := Nat.pow_le_pow_right (by omega) hi
    rw [Nat.testBit_lt_two_pow (lt_of_lt_of_le hL hle),
      Nat.testBit_lt_two_pow (lt_of_lt_of_le h hle)]

lemma indexByte_of_not_mem (l : List Nat) (b : Nat) (h : b ∉ l) : indexByte l b = -1 := by
  induction l with
  | nil => rfl
  | cons x xs ih =>
    simp only [List.mem_cons, not_or] at h
    rw [indexByte, if_neg fun hh => h.1 hh.symm, ih h.2, if_pos rfl]

lemma indexByte_mem (l : List Nat) (b : Nat) (h : b ∈ l) :
    0 ≤ indexByte l b ∧ indexByte l b < (l.length : Int) := by
  induction l with
  | nil => simp at h
  | cons x xs ih =>
    rw [indexByte]
    by_cases hx : x = b
    · rw [if_pos hx]
      simp only [List.length_cons]
      constructor
      · omega
      · push_cast
        omega
    · have hmem : b ∈ xs := by
        rcases List.mem_cons.mp h with h1 | h1
        · exact absurd h1.symm hx
        · exact h1
      obtain ⟨h1, h2⟩ := ih hmem
      rw [if_neg hx, if_neg (by omega)]
      simp only [List.length_cons]
      push_cast
      omega

/-- A byte outside the alphabet hits the sentinel `0xff` in `decMap`. -/
lemma decMap_of_not_mem (b : Nat) (h : b ∉ stdBytes) : decMap b = 255 := by
  rw [decMap, indexByte_of_not_mem _ _ h]
  rfl

/-- An alphabet symbol decodes to a legal 5-bit value. -/
lemma decMap_lt_32_of_mem (b : Nat) (h : b ∈ stdBytes) : decMap b < 32 := by
  obtain ⟨h1, h2⟩ := indexByte_mem _ _ h
  have hlen : stdBytes.length = 32 := by rfl
  rw [hlen] at h2
  rw [decMap, byteOfInt]
  omega

/-- A single decode-table lookup passes the `& 0xe0` test iff the byte is an
alphabet symbol. -/
lemma decMap_and_e0_eq_zero_iff (b : Nat) : decMap b &&& 0xe0 = 0 ↔ b ∈ stdBytes := by
  constructor
  · intro h
    by_contra hmem
    rw [decMap_of_not_mem b hmem] at h
    exact absurd h (by decide)
  · intro h
    exact lt32_and_e0 _ (decMap_lt_32_of_mem b h)

lemma or_eq_zero_iff (a b : Nat) : a ||| b = 0 ↔ a = 0 ∧ b = 0 := by
  constructor
  · intro h
    have hz : ∀ i, Nat.testBit a i = false ∧ Nat.testBit b i = false := by
      intro i
      have := congrArg (fun x => Nat.testBit x i) h
      simpa using this
    exact ⟨Nat.eq_of_testBit_eq fun i => by simp [(hz i).1],
           Nat.eq_of_testBit_eq fun i => by simp [(hz i).2]⟩
  · rintro ⟨rfl, rfl⟩
    rfl

/-- The `& 0xe0` test on the duplicated OR-accumulator succeeds iff all 13 bytes
are alphabet symbols. -/
lemma m13_iff (b0 b1 b2 b3 b4 b5 b6 b7 b8 b9 b10 b11 b12 : Nat) :
    (decMap b12 ||| decMap b11 ||| decMap b10 ||| decMap b9 |||
      decMap b8 ||| decMap b9 ||| decMap b8 ||| decMap b7 |||
      decMap b6 ||| decMap b5 ||| decMap b4 ||| decMap b3 |||
      decMap b2 ||| decMap b1 ||| decMap b0) &&& 0xe0 = 0 ↔
    (b0 ∈ stdBytes ∧ b1 ∈ stdBytes ∧ b2 ∈ stdBytes ∧ b3 ∈ stdBytes ∧
      b4 ∈ stdBytes ∧ b5 ∈ stdBytes ∧ b6 ∈ stdBytes ∧ b7 ∈ stdBytes ∧
      b8 ∈ stdBytes ∧ b9 ∈ stdBytes ∧ b10 ∈ stdBytes ∧ b11 ∈ stdBytes ∧
      b12 ∈ stdBytes) := by
  simp only [Nat.and_distrib_right, or_eq_zero_iff, decMap_and_e0_eq_zero_iff]
  tauto

/-- A too-short destination makes the very first write of `EncodeUint64` panic. -/
lemma encode_none (n : Nat) (dst : List Nat) (h : dst.length < 13) :
    EncodeUint64 n dst = none := by
  have h12 : ¬ (12 < dst.length) := by omega
  simp [EncodeUint64, setByte, h12]

/-- A too-short source makes the very first read of `DecodeUint64` panic. -/
lemma decode_none (src : List Nat) (h : src.length < 13) :
    DecodeUint64 src = none := by
  have h12 : src[12]? = none := List.getElem?_eq_none (by omega)
  unfold DecodeUint64
  rw [h12]

/-- OR is idempotent: the duplicated 5th/7th operands collapse. -/
lemma or_dup15 (x12 x11 x10 x9 x8 x7 x6 x5 x4 x3 x2 x1 x0 : Nat) :
    x12 ||| x11 ||| x10 ||| x9 ||| x8 ||| x9 ||| x8 ||| x7 ||| x6 ||| x5 |||
      x4 ||| x3 ||| x2 ||| x1 ||| x0 =
    x12 ||| x11 ||| x10 ||| x9 ||| x8 ||| x7 ||| x6 ||| x5 |||
      x4 ||| x3 ||| x2 ||| x1 ||| x0 := by
  apply Nat.eq_of_testBit_eq
  intro i
  simp only [Nat.testBit_or]
  cases Nat.testBit x9 i <;> cases Nat.testBit x8 i <;> simp

lemma getElem?_eq_of_drop_eq (k : Nat) (xs ys : List Nat) (h : xs.drop k = ys.drop k)
    (i : Nat) (hi : k ≤ i) : xs[i]? = ys[i]? := by
  have hk : k + (i - k) = i := by omega
  rw [← hk, ← List.getElem?_drop, ← List.getElem?_drop, h]

/-- The decoder the spec recommends implementers write instead: identical to
`DecodeUint64` except that the validity accumulator is the straightforward
OR-reduction of the 13 raw lookups, without the duplicated
`src[9]`/`src[8]` terms. -/
def DecodeUint64Straightforward (src : List Nat) : Option (Nat × Bool) :=
  match src[12]? with
  | none => none
  | some b12 =>
  match src[11]? with
  | none => none
  | some b11 =>
  match src[10]? with
  | none => none
  | some b10 =>
  match src[9]? with
  | none => none
  | some b9 =>
  match src[8]? with
  | none => none
  | some b8 =>
  match src[7]? with
  | none => none
  | some b7 =>
  match src[6]? with
  | none => none
  | some b6 =>
  match src[5]? with
  | none => none
  | some b5 =>
  match src[4]? with
  | none => none
  | some b4 =>
  match src[3]? with
  | none => none
  | some b3 =>
  match src[2]? with
  | none => none
  | some b2 =>
  match src[1]? with
  | none => none
  | some b1 =>
  match src[0]? with
  | none => none
  | some b0 =>
  some (mod64 (decMap b12 >>> 1) |||
    mod64 (decMap b11 <<< 4) |||
    mod64 (decMap b10 <<< 9) |||
    mod64 (decMap b9 <<< 14) |||
    mod64 (decMap b8 <<< 19) |||
    mod64 (decMap b7 <<< 24) |||
    mod64 (decMap b6 <<< 29) |||
    mod64 (decMap b5 <<< 34) |||
    mod64 (decMap b4 <<< 39) |||
    mod64 (decMap b3 <<< 44) |||
    mod64 (decMap b2 <<< 49) |||
    mod64 (decMap b1 <<< 54) |||
    mod64 (decMap b0 <<< 59),
    (decMap b12 ||| decMap b11 ||| decMap b10 ||| decMap b9 |||
      decMap b8 ||| decMap b7 ||| decMap b6 ||| decMap b5 |||
      decMap b4 ||| decMap b3 ||| decMap b2 ||| decMap b1 |||
      decMap b0) &&& 0xe0 == 0)

/-- `DecodeUint64Straightforward` on an explicitly decomposed source. -/
lemma decode_straightforward_cons (b0 b1 b2 b3 b4 b5 b6 b7 b8 b9 b10 b11 b12 : Nat)
    (rest : List Nat) :
    DecodeUint64Straightforward
        (b0 :: b1 :: b2 :: b3 :: b4 :: b5 :: b6 :: b7 :: b8 :: b9 :: b10 :: b11 :: b12 :: rest) =
      some (mod64 (decMap b12 >>> 1) |||
        mod64 (decMap b11 <<< 4) |||
        mod64 (decMap b10 <<< 9) |||
        mod64 (decMap b9 <<< 14) |||
        mod64 (decMap b8 <<< 19) |||
        mod64 (decMap b7 <<< 24) |||
        mod64 (decMap b6 <<< 29) |||
        mod64 (decMap b5 <<< 34) |||
        mod64 (decMap b4 <<< 39) |||
        mod64 (decMap b3 <<< 44) |||
        mod64 (decMap b2 <<< 49) |||
        mod64 (decMap b1 <<< 54) |||
        mod64 (decMap b0 <<< 59),
        (decMap b12 ||| decMap b11 ||| decMap b10 ||| decMap b9 |||
          decMap b8 ||| decMap b7 ||| decMap b6 ||| decMap b5 |||
          decMap b4 ||| decMap b3 ||| decMap b2 ||| decMap b1 |||
          decMap b0) &&& 0xe0 == 0) := by
  simp [DecodeUint64Straightforward]

/-- A too-short source also makes `DecodeUint64Straightforward` panic. -/
lemma decode_straightforward_none (src : List Nat) (h : src.length < 13) :
    DecodeUint64Straightforward src = none := by
  have h12 : src[12]? = none := List.getElem?_eq_none (by omega)
  unfold DecodeUint64Straightforward
  rw [h12]

/-! ### Claim theorems -/

set_option maxHeartbeats 1000000 in
/-- C1: For every 64-bit unsigned integer `n`, decoding the 13-byte encoding of `n`
succeeds and returns `n`: `DecodeUint64` applied to the buffer written by
`EncodeUint64 n` returns `(n, true)`. -/
theorem roundtrip (n : Nat) (hn : n < 2 ^ 64) (dst : List Nat) (hdst : 13 ≤ dst.length) :
    ∃ out, EncodeUint64 n dst = some out ∧ DecodeUint64 out = some (n, true) := by
  obtain ⟨b0, b1, b2, b3, b4, b5, b6, b7, b8, b9, b10, b11, b12, rest, rfl⟩ := cons13 dst hdst
  refine ⟨_, encode_cons n b0 b1 b2 b3 b4 b5 b6 b7 b8 b9 b10 b11 b12 rest, ?_⟩
  rw [decode_cons]
  have hf : n &&& 0xf < 2 ^ 4 := Nat.and_lt_two_pow _ (by norm_num)
  have hmask : ∀ k : Nat, (n >>> k) &&& 0x1f < 2 ^ 5 := fun k =>
    Nat.and_lt_two_pow _ (by norm_num)
  have htop : n >>> 59 < 2 ^ 5 := by
    rw [Nat.shiftRight_eq_div_pow]
    omega
  have h12 : decMap (encMap ((n &&& 0xf) <<< 1)) = (n &&& 0xf) <<< 1 :=
    dec_enc _ (by rw [Nat.shiftLeft_eq]; omega)
  have hd : ∀ k : Nat, decMap (encMap ((n >>> k) &&& 0x1f)) = (n >>> k) &&& 0x1f := fun k =>
    dec_enc _ (hmask k)
  have h0 : decMap (encMap (n >>> 59)) = n >>> 59 := dec_enc _ htop
  rw [h12, hd 4, hd 9, hd 14, hd 19, hd 24, hd 29, hd 34, hd 39, hd 44, hd 49, hd 54, h0]
  have hsl : ((n &&& 0xf) <<< 1) >>> 1 = n &&& 0xf := by
    rw [Nat.shiftLeft_eq, Nat.shiftRight_eq_div_pow]
    omega
  have ht12 : (n &&& 0xf) <<< 1 < 2 ^ 5 := by
    rw [Nat.shiftLeft_eq]
    omega
  have hmk : ∀ k, k ≤ 59 → mod64 (((n >>> k) &&& 0x1f) <<< k) = ((n >>> k) &&& 0x1f) <<< k :=
    fun k hk => mod64_eq_of_lt (shiftLeft_lt_64 _ _ (hmask k) hk)
  rw [hsl, mod64_eq_of_lt (by omega),
    hmk 4 (by omega), hmk 9 (by omega), hmk 14 (by omega), hmk 19 (by omega),
    hmk 24 (by omega), hmk 29 (by omega), hmk 34 (by omega), hmk 39 (by omega),
    hmk 44 (by omega), hmk 49 (by omega), hmk 54 (by omega),
    mod64_eq_of_lt (shiftLeft_lt_64 _ _ htop (by omega)),
    reassemble n hn]
  have hmlt : (n &&& 0xf) <<< 1 ||| (n >>> 4) &&& 0x1f ||| (n >>> 9) &&& 0x1f |||
      (n >>> 14) &&& 0x1f ||| (n >>> 19) &&& 0x1f ||| (n >>> 14) &&& 0x1f |||
      (n >>> 19) &&& 0x1f ||| (n >>> 24) &&& 0x1f ||| (n >>> 29) &&& 0x1f |||
      (n >>> 34) &&& 0x1f ||| (n >>> 39) &&& 0x1f ||| (n >>> 44) &&& 0x1f |||
      (n >>> 49) &&& 0x1f ||| (n >>> 54) &&& 0x1f ||| n >>> 59 < 2 ^ 5 :=
    Nat.or_lt_two_pow
      (Nat.or_lt_two_pow
        (Nat.or_lt_two_pow
          (Nat.or_lt_two_pow
            (Nat.or_lt_two_pow
              (Nat.or_lt_two_pow
                (Nat.or_lt_two_pow
                  (Nat.or_lt_two_pow
                    (Nat.or_lt_two_pow
                      (Nat.or_lt_two_pow
                        (Nat.or_lt_two_pow
                          (Nat.or_lt_two_pow
                            (Nat.or_lt_two_pow
                              (Nat.or_lt_two_pow ht12 (hmask 4))
                              (hmask 9))
                            (hmask 14))
                          (hmask 19))
                        (hmask 14))
                      (hmask 19))
                    (hmask 24))
                  (hmask 29))
                (hmask 34))
              (hmask 39))
            (hmask 44))
          (hmask 49))
        (hmask 54))
      htop
  rw [lt32_and_e0 _ hmlt]
  rfl

/-- Witness for C1 at the known vector `0x0102030405060708`. -/
theorem roundtrip_witness :
    ∃ out, EncodeUint64 0x0102030405060708 (List.replicate 13 0) = some out ∧
      DecodeUint64 out = some (0x0102030405060708, true) :=
  roundtrip 0x0102030405060708 (by norm_num) (List.replicate 13 0) (by simp)

/-- C2: For every input of exactly 13 bytes, `DecodeUint64` returns a true validity
flag if and only if all 13 bytes are symbols of the 32-character alphabet; if at
least one byte is outside the alphabet it returns false regardless of the other
12 symbols. -/
theorem decode_valid_iff (src : List Nat) (h : src.length = 13) :
    ∃ v b, DecodeUint64 src = some (v, b) ∧
      (b = true ↔ ∀ x ∈ src, x ∈ stdBytes) := by
  obtain ⟨b0, b1, b2, b3, b4, b5, b6, b7, b8, b9, b10, b11, b12, rest, rfl⟩ :=
    cons13 src (by omega)
  have hrest : rest = [] := by
    simp only [List.length_cons] at h
    exact List.eq_nil_of_length_eq_zero (by omega)
  subst hrest
  rw [decode_cons]
  refine ⟨_, _, rfl, ?_⟩
  rw [beq_iff_eq, m13_iff]
  simp [List.forall_mem_cons]

/-- Witness for C2: a 13-byte input whose last byte `0x30` (`'0'`) is not in the
alphabet. -/
theorem decode_valid_iff_witness :
    ∃ v b, DecodeUint64 [97, 97, 97, 97, 97, 97, 97, 97, 97, 97, 97, 97, 48] = some (v, b) ∧
      (b = true ↔ ∀ x ∈ [97, 97, 97, 97, 97, 97, 97, 97, 97, 97, 97, 97, 48], x ∈ stdBytes) :=
  decode_valid_iff [97, 97, 97, 97, 97, 97, 97, 97, 97, 97, 97, 97, 48] (by rfl)

/-- C3: `EncodeUint64` writes 13 symbols where position `i` (for `i = 0..11`) holds
the encode-table entry of `(n >>> (59 - 5*i)) &&& 0x1f`, and position 12 holds the
encode-table entry of the lowest 4 bits of `n` shifted left by one. -/
theorem encode_positions (n : Nat) (hn : n < 2 ^ 64) (dst : List Nat) (hdst : 13 ≤ dst.length) :
    ∃ out, EncodeUint64 n dst = some out ∧
      (∀ i, i < 12 → out[i]? = some (encMap ((n >>> (59 - 5 * i)) &&& 0x1f))) ∧
      out[12]? = some (encMap ((n &&& 0xf) <<< 1)) := by
  obtain ⟨b0, b1, b2, b3, b4, b5, b6, b7, b8, b9, b10, b11, b12, rest, rfl⟩ :=
    cons13 dst hdst
  have htop : n >>> 59 < 2 ^ 5 := by
    rw [Nat.shiftRight_eq_div_pow]
    omega
  have hmask0 : (n >>> 59) &&& 0x1f = n >>> 59 := by
    rw [show (0x1f : Nat) = 2 ^ 5 - 1 by norm_num]
    exact Nat.and_pow_two_sub_one_of_lt_two_pow htop
  refine ⟨_, encode_cons n b0 b1 b2 b3 b4 b5 b6 b7 b8 b9 b10 b11 b12 rest, ?_, ?_⟩
  · intro i hi
    interval_cases i <;> simp [hmask0]
  · simp

/-- Witness for C3 at `n = 0xfedcba9876543210`. -/
theorem encode_positions_witness :
    ∃ out, EncodeUint64 0xfedcba9876543210 (List.replicate 13 0) = some out ∧
      (∀ i, i < 12 → out[i]? = some (encMap ((0xfedcba9876543210 >>> (59 - 5 * i)) &&& 0x1f))) ∧
      out[12]? = some (encMap ((0xfedcba9876543210 &&& 0xf) <<< 1)) :=
  encode_positions 0xfedcba9876543210 (by norm_num) (List.replicate 13 0) (by simp)

/-- C4: after table construction the encode and decode tables are exact inverses
over the alphabet's 32 symbols, the alphabet has exactly 32 entries with no
repeated symbol, and every byte outside the alphabet decodes to a sentinel that
is not a legal 5-bit value. -/
theorem tables_inverse :
    (∀ v, v < 32 → decMap (encMap v) = v) ∧
    stdBytes.length = 32 ∧ stdBytes.Nodup ∧
    (∀ b, b ∉ stdBytes → 32 ≤ decMap b) := by
  refine ⟨dec_enc, rfl, by decide, ?_⟩
  intro b hb
  rw [decMap_of_not_mem b hb]
  omega

/-- Witness for C4 at `v = 31` and the non-alphabet byte `0x30` (`'0'`). -/
theorem tables_inverse_witness : decMap (encMap 31) = 31 ∧ 32 ≤ decMap 48 :=
  ⟨tables_inverse.1 31 (by norm_num), tables_inverse.2.2.2 48 (by decide)⟩

/-- C5: `EncodeUint64ToString` maps the boundary and known-vector inputs to the
exact stated strings. -/
theorem encode_known_vectors :
    EncodeUint64ToString 0x0000000000000000 = "aaaaaaaaaaaaa" ∧
    EncodeUint64ToString 0xffffffffffffffff = "7777777777776" ∧
    EncodeUint64ToString 0xfffffffffffffffe = "7777777777774" ∧
    EncodeUint64ToString 0x0102030405060708 = "aebagbafaydqq" :=
  ⟨rfl, rfl, rfl, rfl⟩

/-- C6: a 13-byte all-alphabet input is accepted even when the final symbol's
5-bit value has its lowest bit set, and replacing the final symbol by one whose
5-bit value differs only in that discarded low bit leaves the decoded value (and
acceptance) unchanged. -/
theorem decode_normalizes_discarded_bit (src : List Nat) (h : src.length = 13)
    (hm : ∀ x ∈ src, x ∈ stdBytes) (c : Nat) (hc : c ∈ stdBytes)
    (hlow : decMap c >>> 1 = decMap (src.getD 12 0) >>> 1) :
    ∃ v, DecodeUint64 src = some (v, true) ∧
      DecodeUint64 (src.set 12 c) = some (v, true) := by
  obtain ⟨b0, b1, b2, b3, b4, b5, b6, b7, b8, b9, b10, b11, b12, rest, rfl⟩ :=
    cons13 src (by omega)
  have hrest : rest = [] := by
    simp only [List.length_cons] at h
    exact List.eq_nil_of_length_eq_zero (by omega)
  subst hrest
  simp only [List.forall_mem_cons] at hm
  have hset : (b0 :: b1 :: b2 :: b3 :: b4 :: b5 :: b6 :: b7 :: b8 :: b9 :: b10 :: b11 ::
      b12 :: ([] : List Nat)).set 12 c =
      b0 :: b1 :: b2 :: b3 :: b4 :: b5 :: b6 :: b7 :: b8 :: b9 :: b10 :: b11 :: c :: [] := rfl
  have hlow' : decMap c >>> 1 = decMap b12 >>> 1 := hlow
  rw [hset, decode_cons, decode_cons]
  have t1 : ((decMap b12 ||| decMap b11 ||| decMap b10 ||| decMap b9 |||
      decMap b8 ||| decMap b9 ||| decMap b8 ||| decMap b7 |||
      decMap b6 ||| decMap b5 ||| decMap b4 ||| decMap b3 |||
      decMap b2 ||| decMap b1 ||| decMap b0) &&& 0xe0 == 0) = true :=
    beq_iff_eq.mpr ((m13_iff b0 b1 b2 b3 b4 b5 b6 b7 b8 b9 b10 b11 b12).mpr (by tauto))
  have t2 : ((decMap c ||| decMap b11 ||| decMap b10 ||| decMap b9 |||
      decMap b8 ||| decMap b9 ||| decMap b8 ||| decMap b7 |||
      decMap b6 ||| decMap b5 ||| decMap b4 ||| decMap b3 |||
      decMap b2 ||| decMap b1 ||| decMap b0) &&& 0xe0 == 0) = true :=
    beq_iff_eq.mpr ((m13_iff b0 b1 b2 b3 b4 b5 b6 b7 b8 b9 b10 b11 c).mpr (by tauto))
  exact ⟨_, by rw [t1], by rw [hlow', t2]⟩

/-- Witness for C6: `"aaaaaaaaaaaaa"` versus the same input ending in `'b'`
(5-bit value 1, low bit set): both accepted, same decoded value. -/
theorem decode_normalizes_discarded_bit_witness :
    ∃ v, DecodeUint64 [97, 97, 97, 97, 97, 97, 97, 97, 97, 97, 97, 97, 97] = some (v, true) ∧
      DecodeUint64 ([97, 97, 97, 97, 97, 97, 97, 97, 97, 97, 97, 97, 97].set 12 98) =
        some (v, true) :=
  decode_normalizes_discarded_bit [97, 97, 97, 97, 97, 97, 97, 97, 97, 97, 97, 97, 97]
    (by rfl) (by decide) 98 (by decide) (by decide)

/-- C7: the duplicated `src[9]`/`src[8]` terms in the validity accumulator have no
observable effect: `DecodeUint64` coincides with the variant using the
straightforward OR-reduction of the 13 raw lookups, on every input. -/
theorem decode_eq_straightforward (src : List Nat) :
    DecodeUint64 src = DecodeUint64Straightforward src := by
  rcases Nat.lt_or_ge src.length 13 with h | h
  · rw [decode_none src h, decode_straightforward_none src h]
  · obtain ⟨b0, b1, b2, b3, b4, b5, b6, b7, b8, b9, b10, b11, b12, rest, rfl⟩ :=
      cons13 src h
    rw [decode_cons, decode_straightforward_cons, or_dup15]

/-- C8: with at least 13 slots `EncodeUint64` succeeds, writing exactly positions
0-12 (the tail beyond 13 is untouched); with at least 13 elements `DecodeUint64`
succeeds; with fewer, each operation panics (`none`) instead of truncating. -/
theorem memory_safety :
    (∀ n dst, 13 ≤ dst.length → ∃ out, EncodeUint64 n dst = some out ∧
      out.length = dst.length ∧
      out.take 13 = [encMap (n >>> 59), encMap ((n >>> 54) &&& 0x1f),
        encMap ((n >>> 49) &&& 0x1f), encMap ((n >>> 44) &&& 0x1f),
        encMap ((n >>> 39) &&& 0x1f), encMap ((n >>> 34) &&& 0x1f),
        encMap ((n >>> 29) &&& 0x1f), encMap ((n >>> 24) &&& 0x1f),
        encMap ((n >>> 19) &&& 0x1f), encMap ((n >>> 14) &&& 0x1f),
        encMap ((n >>> 9) &&& 0x1f), encMap ((n >>> 4) &&& 0x1f),
        encMap ((n &&& 0xf) <<< 1)] ∧
      out.drop 13 = dst.drop 13) ∧
    (∀ n dst, dst.length < 13 → EncodeUint64 n dst = none) ∧
    (∀ src, 13 ≤ src.length → (DecodeUint64 src).isSome = true) ∧
    (∀ src, src.length < 13 → DecodeUint64 src = none) := by
  refine ⟨?_, encode_none, ?_, decode_none⟩
  · intro n dst h
    obtain ⟨b0, b1, b2, b3, b4, b5, b6, b7, b8, b9, b10, b11, b12, rest, rfl⟩ :=
      cons13 dst h
    exact ⟨_, encode_cons n b0 b1 b2 b3 b4 b5 b6 b7 b8 b9 b10 b11 b12 rest,
      by simp, rfl, rfl⟩
  · intro src h
    obtain ⟨b0, b1, b2, b3, b4, b5, b6, b7, b8, b9, b10, b11, b12, rest, rfl⟩ :=
      cons13 src h
    rw [decode_cons]
    rfl

/-- Witness for C8: a 13-slot buffer succeeds; an empty buffer and a 1-byte source
panic; a 13-byte source decodes. -/
theorem memory_safety_witness :
    (∃ out, EncodeUint64 5 (List.replicate 13 0) = some out ∧
      out.length = (List.replicate 13 0 : List Nat).length ∧
      out.take 13 = [encMap (5 >>> 59), encMap ((5 >>> 54) &&& 0x1f),
        encMap ((5 >>> 49) &&& 0x1f), encMap ((5 >>> 44) &&& 0x1f),
        encMap ((5 >>> 39) &&& 0x1f), encMap ((5 >>> 34) &&& 0x1f),
        encMap ((5 >>> 29) &&& 0x1f), encMap ((5 >>> 24) &&& 0x1f),
        encMap ((5 >>> 19) &&& 0x1f), encMap ((5 >>> 14) &&& 0x1f),
        encMap ((5 >>> 9) &&& 0x1f), encMap ((5 >>> 4) &&& 0x1f),
        encMap ((5 &&& 0xf) <<< 1)] ∧
      out.drop 13 = (List.replicate 13 0 : List Nat).drop 13) ∧
    EncodeUint64 0 [] = none ∧
    DecodeUint64 [97] = none ∧
    (DecodeUint64 (List.replicate 13 97)).isSome = true :=
  ⟨memory_safety.1 5 (List.replicate 13 0) (by simp),
   memory_safety.2.1 0 [] (by simp),
   memory_safety.2.2.2 [97] (by simp),
   memory_safety.2.2.1 (List.replicate 13 97) (by simp)⟩

/-- C9: the result of `DecodeUint64` depends only on the first 13 bytes: two
sources of length ≥ 13 agreeing on positions 0-12 decode identically, whatever
the bytes beyond position 12 are. -/
theorem decode_first13 (s1 s2 : List Nat) (h1 : 13 ≤ s1.length) (h2 : 13 ≤ s2.length)
    (hagree : ∀ i, i < 13 → s1[i]? = s2[i]?) :
    DecodeUint64 s1 = DecodeUint64 s2 := by
  obtain ⟨a0, a1, a2, a3, a4, a5, a6, a7, a8, a9, a10, a11, a12, r1, rfl⟩ :=
    cons13 s1 h1
  obtain ⟨c0, c1, c2, c3, c4, c5, c6, c7, c8, c9, c10, c11, c12, r2, rfl⟩ :=
    cons13 s2 h2
  have e0 : a0 = c0 := by simpa using hagree 0 (by omega)
  have e1 : a1 = c1 := by simpa using hagree 1 (by omega)
  have e2 : a2 = c2 := by simpa using hagree 2 (by omega)
  have e3 : a3 = c3 := by simpa using hagree 3 (by omega)
  have e4 : a4 = c4 := by simpa using hagree 4 (by omega)
  have e5 : a5 = c5 := by simpa using hagree 5 (by omega)
  have e6 : a6 = c6 := by simpa using hagree 6 (by omega)
  have e7 : a7 = c7 := by simpa using hagree 7 (by omega)
  have e8 : a8 = c8 := by simpa using hagree 8 (by omega)
  have e9 : a9 = c9 := by simpa using hagree 9 (by omega)
  have e10 : a10 = c10 := by simpa using hagree 10 (by omega)
  have e11 : a11 = c11 := by simpa using hagree 11 (by omega)
  have e12 : a12 = c12 := by simpa using hagree 12 (by omega)
  subst e0 e1 e2 e3 e4 e5 e6 e7 e8 e9 e10 e11 e12
  rw [decode_cons, decode_cons]

/-- Witness for C9: appending a non-alphabet byte `0xff` past position 12 does not
change the result. -/
theorem decode_first13_witness :
    DecodeUint64 (List.replicate 13 97) = DecodeUint64 (List.replicate 13 97 ++ [255]) :=
  decode_first13 _ _ (by simp) (by simp) (by intro i hi; interval_cases i <;> rfl)

/-- C10: `EncodeUint64` modifies only positions 0-12: on a buffer longer than 13,
every byte at index 13 and beyond keeps its prior value. -/
theorem encode_frame (n : Nat) (dst : List Nat) (h : 13 < dst.length) :
    ∃ out, EncodeUint64 n dst = some out ∧ ∀ i, 13 ≤ i → out[i]? = dst[i]? := by
  obtain ⟨b0, b1, b2, b3, b4, b5, b6, b7, b8, b9, b10, b11, b12, rest, rfl⟩ :=
    cons13 dst (by omega)
  refine ⟨_, encode_cons n b0 b1 b2 b3 b4 b5 b6 b7 b8 b9 b10 b11 b12 rest, ?_⟩
  intro i hi
  exact getElem?_eq_of_drop_eq 13 _ _ (by rfl) i hi

/-- Witness for C10 on a 14-byte buffer of sevens. -/
theorem encode_frame_witness :
    ∃ out, EncodeUint64 0 (List.replicate 14 7) = some out ∧
      ∀ i, 13 ≤ i → out[i]? = (List.replicate 14 7 : List Nat)[i]? :=
  encode_frame 0 (List.replicate 14 7) (by simp)

end B32
